import Mathlib

/-!
Verification of the receiptor invoice-processing pipeline.

The repository's decision logic lives partly in the React frontend
(frontend/src/components, frontend/src/types/invoice.ts) and partly in a
FastAPI backend whose Python sources are not part of this tree.  Frontend
functions are embedded directly from their TypeScript sources; backend
behaviour that the spec describes but whose code is absent is modelled
from the spec and marked as such in the doc comment of each definition.

Numbers: TypeScript numbers carrying confidences/amounts are embedded as
rationals; integer scores, timestamps and millisecond durations as
naturals/integers.
-/

namespace Receiptor

/-- Invoice lifecycle status, from the string-literal union type
InvoiceStatus in frontend/src/types/invoice.ts. -/
inductive InvoiceStatus
  | uploaded
  | processing
  | extracted
  | matched
  | classified
  | needsReview
  | approved
  | rejected
deriving DecidableEq, Repr, Fintype

/-- Extraction status, from the union type in ExtractionResult
(frontend/src/types/invoice.ts): success, partial, failed.  The middle
constructor is named partialStatus because of Lean keyword clashes. -/
inductive ExtractionStatus
  | success
  | partialStatus
  | failed
deriving DecidableEq, Repr

/-- Modelled from the spec: the backend mapping from an extraction
confidence in [0,1] to an extraction_status.  Confidence at least 0.85
maps to success, at least 0.4 (and below 0.85) to partial, below 0.4 to
failed.  The backend source that computes this is not in the tree. -/
def extractionStatusOf (c : ℚ) : ExtractionStatus :=
  if 85/100 ≤ c then .success
  else if 40/100 ≤ c then .partialStatus
  else .failed

/-- Numeric rank of an extraction status, for stating monotonicity:
failed below partial below success. -/
def statusRank : ExtractionStatus → ℕ
  | .failed => 0
  | .partialStatus => 1
  | .success => 2

/-- From VendorMatcher.getConfidenceClass (src/unnamed/part_005):
the CSS class chosen for a candidate score, thresholds 90 / 85 / 70. -/
def getConfidenceClass (score : ℕ) : String :=
  if 90 ≤ score then "confidence-high"
  else if 85 ≤ score then "confidence-auto"
  else if 70 ≤ score then "confidence-review"
  else "confidence-low"

/-- Vendor-candidate confidence level, from the union type in
MatchCandidate (frontend/src/types/invoice.ts). -/
inductive ConfidenceLevel
  | high
  | autoApprove
  | review
  | low
deriving DecidableEq, Repr

/-- Modelled from the spec: the backend derivation of a candidate's
confidence_level from its 0-100 match score (score at least 90 gives
high, at least 85 gives auto_approve, at least 70 gives review,
otherwise low).  The backend source is not in the tree; the frontend
applies the same thresholds in getConfidenceClass. -/
def confidenceLevelOf (score : ℕ) : ConfidenceLevel :=
  if 90 ≤ score then .high
  else if 85 ≤ score then .autoApprove
  else if 70 ≤ score then .review
  else .low

/-- The CSS class the frontend associates with each confidence level. -/
def levelClass : ConfidenceLevel → String
  | .high => "confidence-high"
  | .autoApprove => "confidence-auto"
  | .review => "confidence-review"
  | .low => "confidence-low"

/-- C1: for every confidence in [0,1] the extraction_status mapping
assigns exactly one of success, partial, failed, partitions [0,1] at the
0.85 and 0.4 boundaries with no gaps or overlaps, and is monotonic in
the confidence. -/
theorem extractionStatus_partition_monotone (c d : ℚ)
    (hc0 : 0 ≤ c) (hc1 : c ≤ 1) (hd0 : 0 ≤ d) (hd1 : d ≤ 1) (hcd : c ≤ d) :
    (extractionStatusOf c = .success ↔ 85/100 ≤ c) ∧
    (extractionStatusOf c = .partialStatus ↔ 40/100 ≤ c ∧ c < 85/100) ∧
    (extractionStatusOf c = .failed ↔ c < 40/100) ∧
    statusRank (extractionStatusOf c) ≤ statusRank (extractionStatusOf d) := by
  unfold extractionStatusOf statusRank
  split_ifs with h1 h2 h3 h4 h5 h6 h7 <;>
    refine ⟨?_, ?_, ?_, ?_⟩ <;>
    simp_all <;> linarith

/-- Witness for C1 at concrete confidences 0.9 and 0.95. -/
theorem extractionStatus_partition_monotone_witness :
    extractionStatusOf (9/10) = .success ∧
    statusRank (extractionStatusOf (9/10)) ≤ statusRank (extractionStatusOf (19/20)) := by
  have h := extractionStatus_partition_monotone (9/10) (19/20)
    (by norm_num) (by norm_num) (by norm_num) (by norm_num) (by norm_num)
  exact ⟨h.1.mpr (by norm_num), h.2.2.2⟩

/-- C2: for every score in [0,100] the confidence level derivation is a
deterministic partition by the fixed thresholds 90 / 85 / 70 with no
gaps or overlaps, and the frontend's getConfidenceClass agrees with it
class-for-level. -/
theorem confidenceLevel_partition (s : ℕ) (hs : s ≤ 100) :
    (confidenceLevelOf s = .high ↔ 90 ≤ s) ∧
    (confidenceLevelOf s = .autoApprove ↔ 85 ≤ s ∧ s < 90) ∧
    (confidenceLevelOf s = .review ↔ 70 ≤ s ∧ s < 85) ∧
    (confidenceLevelOf s = .low ↔ s < 70) ∧
    getConfidenceClass s = levelClass (confidenceLevelOf s) := by
  unfold confidenceLevelOf getConfidenceClass levelClass
  split_ifs with h1 h2 h3 <;> refine ⟨?_, ?_, ?_, ?_, rfl⟩ <;> simp_all <;> omega

/-- Witness for C2 at concrete score 87 (the auto_approve band). -/
theorem confidenceLevel_partition_witness :
    confidenceLevelOf 87 = .autoApprove ∧ getConfidenceClass 87 = "confidence-auto" := by
  have h := confidenceLevel_partition 87 (by norm_num)
  refine ⟨h.2.1.mpr (by omega), ?_⟩
  rw [h.2.2.2.2, h.2.1.mpr (by omega)]
  rfl

/-- One row of the extracted_fields array attached to an invoice, from
ExtractedFieldResponse in frontend/src/types/invoice.ts.  The created_at
ISO timestamp is embedded as its epoch-millisecond value, which is what
the comparator obtains via Date.getTime. -/
structure ExtractedFieldResponse where
  vendor_name : Option String
  invoice_number : Option String
  invoice_date : Option String
  total_amount : Option ℚ
  confidence : Option ℚ
  created_at : ℤ
deriving DecidableEq, Repr

/-- The confidence used by the review form's comparators: the row's
confidence with nullish values coalesced to 0 (the TypeScript reads
a.confidence ?? 0). -/
def confOf (e : ExtractedFieldResponse) : ℚ := e.confidence.getD 0

/-- The sort order of the best-extraction comparator in
InvoiceReviewForm's useEffect (src/unnamed/part_004 lines 211-219):
a sorts before b when a has strictly higher coalesced confidence, or
equal confidence and a created_at that is at least b's (most recent
first on ties). -/
def beforeInSort (a b : ExtractedFieldResponse) : Prop :=
  confOf b < confOf a ∨ (confOf a = confOf b ∧ b.created_at ≤ a.created_at)

instance : DecidableRel beforeInSort := by
  unfold beforeInSort
  exact fun a b => inferInstance

instance : IsTotal ExtractedFieldResponse beforeInSort := by
  constructor
  intro a b
  unfold beforeInSort
  rcases lt_trichotomy (confOf a) (confOf b) with h | h | h
  · exact Or.inr (Or.inl h)
  · rcases le_total b.created_at a.created_at with ht | ht
    · exact Or.inl (Or.inr ⟨h, ht⟩)
    · exact Or.inr (Or.inr ⟨h.symm, ht⟩)
  · exact Or.inl (Or.inl h)

instance : IsTrans ExtractedFieldResponse beforeInSort := by
  constructor
  intro a b c hab hbc
  unfold beforeInSort at *
  rcases hab with h1 | ⟨h1, t1⟩ <;> rcases hbc with h2 | ⟨h2, t2⟩
  · exact Or.inl (h2.trans h1)
  · exact Or.inl (h2 ▸ h1)
  · exact Or.inl (h1 ▸ h2)
  · exact Or.inr ⟨h2 ▸ h1, t2.trans t1⟩

/-- From InvoiceReviewForm's useEffect: the best extraction is the head
of the extracted_fields array sorted by the comparator above (null when
the array is empty). -/
def bestExtraction (l : List ExtractedFieldResponse) : Option ExtractedFieldResponse :=
  (List.insertionSort beforeInSort l).head?

/-- C3: for a non-empty list of extraction results, the selected best
extraction is a member whose confidence is maximal, and among results of
equal (maximal) confidence its created_at is the most recent. -/
theorem bestExtraction_is_max (l : List ExtractedFieldResponse) (h : l ≠ []) :
    ∃ b, bestExtraction l = some b ∧ b ∈ l ∧
      (∀ e ∈ l, confOf e ≤ confOf b) ∧
      (∀ e ∈ l, confOf e = confOf b → e.created_at ≤ b.created_at) := by
  have hperm := List.perm_insertionSort beforeInSort l
  have hsorted := List.sorted_insertionSort beforeInSort l
  cases hs : List.insertionSort beforeInSort l with
  | nil =>
      rw [hs] at hperm
      exact absurd hperm.symm.eq_nil h
  | cons b t =>
      rw [hs] at hperm hsorted
      have hbl : b ∈ l := hperm.mem_iff.mp (List.mem_cons_self b t)
      have hrel : ∀ e ∈ t, beforeInSort b e := (List.sorted_cons.mp hsorted).1
      have hall : ∀ e ∈ l, e = b ∨ beforeInSort b e := by
        intro e he
        have : e ∈ b :: t := hperm.mem_iff.mpr he
        rcases List.mem_cons.mp this with h1 | h1
        · exact Or.inl h1
        · exact Or.inr (hrel e h1)
      refine ⟨b, ?_, hbl, ?_, ?_⟩
      · unfold bestExtraction
        rw [hs]
        rfl
      · intro e he
        rcases hall e he with h1 | h1
        · exact h1 ▸ le_refl _
        · rcases h1 with h2 | ⟨h2, _⟩
          · exact h2.le
          · exact h2.ge
      · intro e he hconf
        rcases hall e he with h1 | h1
        · exact h1 ▸ le_refl _
        · rcases h1 with h2 | ⟨_, t2⟩
          · exact absurd h2 (by rw [hconf]; exact lt_irrefl _)
          · exact t2

/-- Witness for C3: two rows with equal confidence 0.9 and timestamps 5
and 7; some best row exists satisfying the maximality properties. -/
theorem bestExtraction_is_max_witness :
    ∃ b, bestExtraction
        [⟨none, none, none, none, some (9/10), 5⟩,
         ⟨none, none, none, none, some (9/10), 7⟩] = some b ∧
      b ∈ [(⟨none, none, none, none, some (9/10), 5⟩ : ExtractedFieldResponse),
           ⟨none, none, none, none, some (9/10), 7⟩] ∧
      (∀ e ∈ [(⟨none, none, none, none, some (9/10), 5⟩ : ExtractedFieldResponse),
              ⟨none, none, none, none, some (9/10), 7⟩], confOf e ≤ confOf b) ∧
      (∀ e ∈ [(⟨none, none, none, none, some (9/10), 5⟩ : ExtractedFieldResponse),
              ⟨none, none, none, none, some (9/10), 7⟩],
        confOf e = confOf b → e.created_at ≤ b.created_at) :=
  bestExtraction_is_max _ (by simp)

/-- From InvoiceReviewForm.getConfidence: the extracted_fields array
sorted by coalesced confidence, descending only (no timestamp
tie-break in this second comparator). -/
def sortByConfidence (l : List ExtractedFieldResponse) : List ExtractedFieldResponse :=
  List.insertionSort (fun a b => confOf b ≤ confOf a) l

/-- From InvoiceReviewForm.getConfidence (src/unnamed/part_004 lines
237-249): returns undefined for an empty array, otherwise the
confidence field of the head of the confidence-sorted array.  The
fieldName argument is accepted but never read. -/
def getConfidence (l : List ExtractedFieldResponse) (fieldName : String) : Option ℚ :=
  if l = [] then none
  else
    match (sortByConfidence l).head? with
    | some e => e.confidence
    | none => none

/-- From InvoiceReviewForm.isLowConfidence: true when getConfidence is
defined and below 0.85. -/
def isLowConfidence (l : List ExtractedFieldResponse) (fieldName : String) : Bool :=
  match getConfidence l fieldName with
  | some c => decide (c < 85/100)
  | none => false

/-- C9: the per-field low-confidence flag does not depend on the field
name: for any invoice's extracted_fields and any two field names, the
flag is identical, because getConfidence ignores its fieldName argument
and always inspects the single best overall confidence. -/
theorem isLowConfidence_field_independent
    (l : List ExtractedFieldResponse) (f g : String) :
    isLowConfidence l f = isLowConfidence l g := rfl

/-- Rendering of the processing-time cell by ComparisonDashboard's
formatTime: N/A, a millisecond figure, or a seconds figure. -/
inductive TimeDisplay
  | na
  | millis (m : ℤ)
  | seconds (q : ℚ)
deriving DecidableEq, Repr

/-- From ComparisonDashboard.formatTime: an absent value renders N/A via
the falsiness test (!ms), which also sends the number 0 to N/A; values
under 1000 render as milliseconds, larger ones as seconds (ms/1000). -/
def formatTime : Option ℤ → TimeDisplay
  | none => .na
  | some ms => if ms = 0 then .na else if ms < 1000 then .millis ms else .seconds ((ms : ℚ) / 1000)

/-- Rendering of the confidence cell by ComparisonDashboard's
formatConfidence: N/A or a percentage figure. -/
inductive ConfDisplay
  | na
  | percent (q : ℚ)
deriving DecidableEq, Repr

/-- From ComparisonDashboard.formatConfidence: an absent value renders
N/A via the falsiness test (!conf), which also sends the number 0 to
N/A; otherwise the value scaled to a percentage. -/
def formatConfidence : Option ℚ → ConfDisplay
  | none => .na
  | some c => if c = 0 then .na else .percent (c * 100)

/-- Rendering of the total-amount field: an em dash or a dollar figure. -/
inductive AmountDisplay
  | dash
  | dollars (q : ℚ)
deriving DecidableEq, Repr

/-- From TraditionalOCRProcessor's total-amount cell (lines 120-125):
the ternary tests the number itself for truthiness, so an absent value
and the value 0 both render the em dash. -/
def renderTotalAmount : Option ℚ → AmountDisplay
  | none => .dash
  | some a => if a = 0 then .dash else .dollars a

/-- C10: the display formatters treat the number zero as absent: a
confidence of exactly 0 renders N/A, not a 0 percentage; a processing
time of 0 ms renders N/A; a total_amount of 0 renders the em dash; and
these are the same renderings the formatters give genuinely missing
values. -/
theorem formatters_treat_zero_as_absent :
    formatConfidence (some 0) = .na ∧
    formatConfidence (some 0) ≠ .percent 0 ∧
    formatTime (some 0) = .na ∧
    renderTotalAmount (some 0) = .dash ∧
    formatConfidence none = .na ∧
    formatTime none = .na ∧
    renderTotalAmount none = .dash := by
  refine ⟨rfl, by simp [formatConfidence], rfl, rfl, rfl, rfl, rfl⟩

/-- One CorrectionHistory row, from the CorrectionHistory interface in
frontend/src/types/invoice.ts (audit fields only). -/
structure CorrectionRow where
  field_name : String
  original_value : Option String
  corrected_value : Option String
deriving DecidableEq, Repr

/-- Server-side state of one invoice as far as the review flow sees it:
its lifecycle status and its append-only CorrectionHistory rows. -/
structure InvoiceState where
  status : InvoiceStatus
  corrections : List CorrectionRow
deriving DecidableEq, Repr

/-- Modelled from the spec: the human approve action behind the status
endpoint (PATCH status=approved).  Re-approving an already approved
invoice is a no-op that still succeeds; approving a rejected invoice is
an invalid transition (terminal state) and leaves the invoice unchanged
with an error; otherwise the status becomes approved and no
CorrectionHistory row is written.  The backend source is not in the
tree. -/
def humanApprove (s : InvoiceState) : InvoiceState × Bool :=
  if s.status = .approved then (s, true)
  else if s.status = .rejected then (s, false)
  else ({ s with status := .approved }, true)

/-- Modelled from the spec: the automatic pipeline transitions of the
status state machine (section 4.5): uploaded to processing to extracted
to matched to classified, with needs_review reachable from extracted,
matched or classified when a stage's confidence falls below its
threshold.  No automatic transition produces or leaves approved or
rejected. -/
def pipelineStep : InvoiceStatus → InvoiceStatus → Bool
  | .uploaded, .processing => true
  | .processing, .extracted => true
  | .extracted, .matched => true
  | .matched, .classified => true
  | .extracted, .needsReview => true
  | .matched, .needsReview => true
  | .classified, .needsReview => true
  | .needsReview, _ => false
  | _, _ => false

/-- C4: approved and rejected are terminal and unreachable by automatic
pipeline transitions (only the explicit human action produces them), and
the approve operation is idempotent: approving an already approved
invoice succeeds, changes nothing, and appends no CorrectionHistory
row. -/
theorem approve_terminal_idempotent :
    (∀ a b : InvoiceStatus, pipelineStep a b = true →
      b ≠ .approved ∧ b ≠ .rejected ∧ a ≠ .approved ∧ a ≠ .rejected) ∧
    (∀ s : InvoiceState, s.status = .approved → humanApprove s = (s, true)) ∧
    (∀ s : InvoiceState, s.status = .rejected → humanApprove s = (s, false)) := by
  refine ⟨by decide, ?_, ?_⟩
  · intro s hs
    simp [humanApprove, hs]
  · intro s hs
    simp [humanApprove, hs]

/-- Witness for C4: approving a concrete already-approved invoice with
one existing audit row returns the identical state with success. -/
theorem approve_terminal_idempotent_witness :
    humanApprove ⟨.approved, [⟨"vendor_name", some "a", some "b"⟩]⟩ =
      (⟨.approved, [⟨"vendor_name", some "a", some "b"⟩]⟩, true) ∧
    pipelineStep .classified .approved = false :=
  ⟨approve_terminal_idempotent.2.1 _ rfl, by decide⟩

/-- The review form data held by InvoiceReviewForm, from ReviewFormData
in frontend/src/types/invoice.ts; line items carry the fields the form
compares. -/
structure LineItemRow where
  description : String
  amount : ℚ
deriving DecidableEq, Repr

/-- Form state of InvoiceReviewForm: the four scalar fields plus the
line-item list. -/
structure ReviewFormData where
  vendor_name : Option String
  invoice_number : Option String
  invoice_date : Option String
  total_amount : Option ℚ
  line_items : List LineItemRow
deriving DecidableEq, Repr

/-- A correction value as submitted by the form: a text or a number. -/
inductive FieldValue
  | str (s : String)
  | num (q : ℚ)
deriving DecidableEq, Repr

/-- From handleSaveCorrections (src/unnamed/part_004 lines 277-292): the
corrections object built from the form keys other than line_items whose
formData value differs from the originalData value. -/
def changedCorrections (fd od : ReviewFormData) : List (String × Option FieldValue) :=
  (if fd.vendor_name ≠ od.vendor_name
    then [("vendor_name", fd.vendor_name.map .str)] else []) ++
  (if fd.invoice_number ≠ od.invoice_number
    then [("invoice_number", fd.invoice_number.map .str)] else []) ++
  (if fd.invoice_date ≠ od.invoice_date
    then [("invoice_date", fd.invoice_date.map .str)] else []) ++
  (if fd.total_amount ≠ od.total_amount
    then [("total_amount", fd.total_amount.map .num)] else [])

/-- Outcome of a save attempt in handleSaveCorrections: the early
message when the form equals the loaded data, the message when no
non-line-item field changed, or a backend call with the corrections. -/
inductive SaveOutcome
  | noChangesMsg
  | noFieldChangesMsg
  | saved (cs : List (String × Option FieldValue))
deriving DecidableEq, Repr

/-- From handleSaveCorrections (src/unnamed/part_004 lines 267-296): if
hasChanges() is false (the JSON serialisations of formData and
originalData coincide) the save returns early with a message; otherwise
the changed-field corrections are built, and if empty the save again
returns early; only otherwise is the backend called. -/
def handleSaveCorrections (fd od : ReviewFormData) : SaveOutcome :=
  if fd = od then .noChangesMsg
  else if changedCorrections fd od = [] then .noFieldChangesMsg
  else .saved (changedCorrections fd od)

/-- Number of corrections a save outcome reports as saved. -/
def correctionsSaved : SaveOutcome → ℕ
  | .saved cs => cs.length
  | _ => 0

/-- Whether a save outcome reaches the backend (and hence could write
CorrectionHistory rows or touch the invoice). -/
def backendCalled : SaveOutcome → Bool
  | .saved _ => true
  | _ => false

/-- C5: saving when every submitted field equals its current value is a
no-op, not an error: zero corrections are reported saved and the backend
is never called, so no CorrectionHistory row is produced and the invoice
is unchanged. -/
theorem noop_correction_is_noop (fd od : ReviewFormData)
    (hv : fd.vendor_name = od.vendor_name)
    (hn : fd.invoice_number = od.invoice_number)
    (hd : fd.invoice_date = od.invoice_date)
    (ht : fd.total_amount = od.total_amount) :
    correctionsSaved (handleSaveCorrections fd od) = 0 ∧
    backendCalled (handleSaveCorrections fd od) = false := by
  have hcs : changedCorrections fd od = [] := by
    simp [changedCorrections, hv, hn, hd, ht]
  unfold handleSaveCorrections
  rw [hcs]
  split_ifs <;> simp_all [correctionsSaved, backendCalled]

/-- Witness for C5: a concrete form whose submitted fields all equal the
loaded values reports zero corrections saved and no backend call. -/
theorem noop_correction_is_noop_witness :
    correctionsSaved (handleSaveCorrections
      ⟨some "ABC Plumbing LLC", some "INV-1", some "2026-01-02", some 5432, []⟩
      ⟨some "ABC Plumbing LLC", some "INV-1", some "2026-01-02", some 5432, []⟩) = 0 ∧
    backendCalled (handleSaveCorrections
      ⟨some "ABC Plumbing LLC", some "INV-1", some "2026-01-02", some 5432, []⟩
      ⟨some "ABC Plumbing LLC", some "INV-1", some "2026-01-02", some 5432, []⟩) = false :=
  noop_correction_is_noop _ _ rfl rfl rfl rfl

/-- Winner of the strategy comparison, as carried by the winner field of
ComparisonData (frontend/src/components/ComparisonDashboard.tsx) and
rendered by getWinnerBadge: traditional, vision, or tie. -/
inductive Winner
  | traditional
  | vision
  | tie
deriving DecidableEq, Repr

/-- Summary of one strategy's most recent ExtractionResult as the
comparison endpoint reads it: its confidence and processing time. -/
structure StrategySummary where
  confidence : ℚ
  processing_time_ms : ℤ
deriving DecidableEq, Repr

/-- Modelled from the spec: the winner computed by the backend
comparison endpoint — the strategy with strictly higher confidence, tie
on equality, omitted when either strategy has no result.  The backend
source is not in the tree. -/
def winnerOf : Option ℚ → Option ℚ → Option Winner
  | some t, some v =>
      some (if t < v then .vision else if v < t then .traditional else .tie)
  | _, _ => none

/-- Modelled from the spec: the full read-only comparison diagnostic
(section 4.2): signed time and confidence deltas (vision minus
traditional) and the winner, each null when a strategy is absent. -/
structure ComparisonOut where
  time_difference_ms : Option ℤ
  confidence_difference : Option ℚ
  winner : Option Winner
deriving DecidableEq, Repr

/-- Modelled from the spec: the comparison computation over the two
optional strategy summaries. -/
def comparisonOf (trad vis : Option StrategySummary) : ComparisonOut where
  time_difference_ms :=
    match trad, vis with
    | some t, some v => some (v.processing_time_ms - t.processing_time_ms)
    | _, _ => none
  confidence_difference :=
    match trad, vis with
    | some t, some v => some (v.confidence - t.confidence)
    | _, _ => none
  winner := winnerOf (trad.map (·.confidence)) (vis.map (·.confidence))

/-- Modelled from the spec: the comparison endpoint has no side effect —
it returns the diagnostic and leaves the invoice state exactly as it
found it. -/
def comparisonEndpoint (inv : InvoiceState) (trad vis : Option StrategySummary) :
    ComparisonOut × InvoiceState :=
  (comparisonOf trad vis, inv)

/-- C6: when both strategies ran, the winner is the strategy with
strictly higher confidence and tie exactly on equal confidence; when
only one strategy ran the winner is omitted; and the comparison never
mutates the invoice (the endpoint returns its invoice unchanged). -/
theorem comparison_winner_correct (t v : StrategySummary) (inv : InvoiceState) :
    ((comparisonOf (some t) (some v)).winner = some .vision ↔
      t.confidence < v.confidence) ∧
    ((comparisonOf (some t) (some v)).winner = some .traditional ↔
      v.confidence < t.confidence) ∧
    ((comparisonOf (some t) (some v)).winner = some .tie ↔
      t.confidence = v.confidence) ∧
    (comparisonOf none (some v)).winner = none ∧
    (comparisonOf (some t) none).winner = none ∧
    (comparisonEndpoint inv (some t) (some v)).2 = inv := by
  rcases lt_trichotomy t.confidence v.confidence with h | h | h
  · refine ⟨?_, ?_, ?_, rfl, rfl, rfl⟩ <;>
      simp [comparisonOf, winnerOf, h, asymm h, h.ne]
  · refine ⟨?_, ?_, ?_, rfl, rfl, rfl⟩ <;>
      simp [comparisonOf, winnerOf, h, lt_irrefl]
  · refine ⟨?_, ?_, ?_, rfl, rfl, rfl⟩ <;>
      simp [comparisonOf, winnerOf, h, asymm h, h.ne']

/-- Line items as extracted by the rule-based strategy (description plus
amount, the fields its confidence scoring inspects). -/
structure RuleLineItem where
  description : String
  total : ℚ
deriving DecidableEq, Repr

/-- Modelled from the spec: the fields the rule-based extractor produced
for one document, each possibly absent. -/
structure RuleExtraction where
  vendor_name : Option String
  invoice_number : Option String
  invoice_date : Option String
  total_amount : Option ℚ
  line_items : List RuleLineItem
deriving DecidableEq, Repr

/-- Whether an optional extracted text field counts as found: present
and non-empty. -/
def foundStr : Option String → Bool
  | some s => !s.isEmpty
  | none => false

/-- Modelled from the spec: the rule-based confidence, a weighted sum of
per-field success — vendor 25, total 25, invoice number 15, date 15,
line items 20, out of 100 — each weight awarded in full when the field
is non-null/non-empty and zero otherwise.  The backend source is not in
the tree. -/
def ruleConfidence (e : RuleExtraction) : ℚ :=
  ((if foundStr e.vendor_name then (25 : ℚ) else 0) +
   (if e.total_amount.isSome then 25 else 0) +
   (if foundStr e.invoice_number then 15 else 0) +
   (if foundStr e.invoice_date then 15 else 0) +
   (if e.line_items ≠ [] then 20 else 0)) / 100

/-- C7: the rule-based confidence always lies in [0,1]; removing any one
found field lowers it by exactly that field's weight, independently of
the other fields (so it is a weighted sum with weights 25/25/15/15/20
percent); and an extraction where only vendor and total are found scores
exactly 0.50. -/
theorem ruleConfidence_weighted (e : RuleExtraction)
    (hv : foundStr e.vendor_name = true)
    (ht : e.total_amount.isSome = true)
    (hn : foundStr e.invoice_number = false)
    (hd : foundStr e.invoice_date = false)
    (hl : e.line_items = []) :
    ruleConfidence e = 1/2 ∧
    (∀ f : RuleExtraction, 0 ≤ ruleConfidence f ∧ ruleConfidence f ≤ 1) ∧
    (∀ f : RuleExtraction, foundStr f.vendor_name = true →
      ruleConfidence f - ruleConfidence { f with vendor_name := none } = 25/100) ∧
    (∀ f : RuleExtraction, f.total_amount.isSome = true →
      ruleConfidence f - ruleConfidence { f with total_amount := none } = 25/100) ∧
    (∀ f : RuleExtraction, foundStr f.invoice_number = true →
      ruleConfidence f - ruleConfidence { f with invoice_number := none } = 15/100) ∧
    (∀ f : RuleExtraction, foundStr f.invoice_date = true →
      ruleConfidence f - ruleConfidence { f with invoice_date := none } = 15/100) ∧
    (∀ f : RuleExtraction, f.line_items ≠ [] →
      ruleConfidence f - ruleConfidence { f with line_items := [] } = 20/100) := by
  refine ⟨?_, ?_, ?_, ?_, ?_, ?_, ?_⟩
  · norm_num [ruleConfidence, hv, ht, hn, hd, hl]
  · intro f
    unfold ruleConfidence
    constructor <;> split_ifs <;> norm_num
  all_goals
    intro f hf
    obtain ⟨fv, fn, fdt, ft, fl⟩ := f
    simp only at hf
    simp [ruleConfidence, hf, show foundStr none = false from rfl] <;> ring

/-- Witness for C7: a concrete extraction with vendor and total only
scores exactly one half. -/
theorem ruleConfidence_weighted_witness :
    ruleConfidence ⟨some "ABC Plumbing LLC", none, none, some 5432, []⟩ = 1/2 :=
  (ruleConfidence_weighted ⟨some "ABC Plumbing LLC", none, none, some 5432, []⟩
    rfl rfl rfl rfl rfl).1

/-- A tenant-scoped cost code, from the CostCode interface in
frontend/src/types/invoice.ts (builder_id is the tenant key). -/
structure CostCode where
  code : String
  label : String
  description : Option String
  builder_id : String
deriving DecidableEq, Repr

/-- A registered vendor, from the Subcontractor interface in
frontend/src/types/invoice.ts (builder_id is the tenant key). -/
structure Subcontractor where
  name : String
  builder_id : String
deriving DecidableEq, Repr

/-- Modelled from the spec: the tenant-scoped cost-code pool — every
registry lookup carries the tenant id as part of its key, so the pool is
exactly the codes whose builder_id equals the tenant. -/
def tenantCostCodes (registry : List CostCode) (tenantId : String) : List CostCode :=
  registry.filter (fun c => decide (c.builder_id = tenantId))

/-- Modelled from the spec: the tenant-scoped vendor pool for fuzzy
matching. -/
def tenantVendors (registry : List Subcontractor) (tenantId : String) : List Subcontractor :=
  registry.filter (fun v => decide (v.builder_id = tenantId))

/-- Modelled from the spec: cost-code classification of one line-item
description — score every code of the tenant's taxonomy by semantic
similarity and pick the highest-scoring one (none only when the tenant
taxonomy is empty).  The embedding similarity is abstracted as the
function argument sim.  The backend source is not in the tree. -/
def classifyDescription (sim : String → CostCode → ℚ)
    (registry : List CostCode) (tenantId descr : String) : Option CostCode :=
  (tenantCostCodes registry tenantId).argmax (fun c => sim descr c)

/-- Ordering of vendor candidates by descending fuzzy score against the
extracted name. -/
def scoreOrder (score : String → String → ℕ) (extracted : String)
    (a b : Subcontractor) : Prop :=
  score extracted b.name ≤ score extracted a.name

instance (score : String → String → ℕ) (extracted : String) :
    DecidableRel (scoreOrder score extracted) :=
  fun _ _ => Nat.decLe _ _

/-- Modelled from the spec: vendor matching — score every vendor
registered under the tenant, sort descending, return the top three.
The fuzzy string-similarity scorer is abstracted as the function
argument score.  The backend source is not in the tree. -/
def matchVendorCandidates (score : String → String → ℕ)
    (registry : List Subcontractor) (tenantId extracted : String) : List Subcontractor :=
  (List.insertionSort (scoreOrder score extracted)
    (tenantVendors registry tenantId)).take 3

/-- C8: vendor matching and cost-code classification are
tenant-isolated: a classified code always belongs to the requesting
tenant, so when two tenants' taxonomies share no code strings the code
returned for one tenant is never a code of the other; and every vendor
candidate returned belongs to the requesting tenant. -/
theorem tenant_isolation
    (sim : String → CostCode → ℚ) (score : String → String → ℕ)
    (reg : List CostCode) (vreg : List Subcontractor)
    (t1 t2 d n : String) (c : CostCode)
    (hc : classifyDescription sim reg t1 d = some c)
    (hdisj : ∀ c1 ∈ tenantCostCodes reg t1, ∀ c2 ∈ tenantCostCodes reg t2,
      c1.code ≠ c2.code) :
    c.builder_id = t1 ∧
    (∀ c2 ∈ tenantCostCodes reg t2, c.code ≠ c2.code) ∧
    (∀ v ∈ matchVendorCandidates score vreg t1 n, v.builder_id = t1) := by
  have hmem : c ∈ tenantCostCodes reg t1 :=
    List.argmax_mem (Option.mem_def.mpr hc)
  refine ⟨?_, ?_, ?_⟩
  · exact of_decide_eq_true (List.mem_filter.mp hmem).2
  · intro c2 hc2
    exact hdisj c hmem c2 hc2
  · intro v hv
    have hv1 : v ∈ List.insertionSort (scoreOrder score n) (tenantVendors vreg t1) :=
      List.mem_of_mem_take hv
    have hv2 : v ∈ tenantVendors vreg t1 := by
      simpa using hv1
    exact of_decide_eq_true (List.mem_filter.mp hv2).2

/-- Witness for C8: a two-tenant registry with disjoint codes; the code
classified for tenant t1 belongs to t1 and is none of t2's codes, and
the vendor candidates for t1 all belong to t1. -/
theorem tenant_isolation_witness :
    (⟨"100", "Plumbing", none, "t1"⟩ : CostCode).builder_id = "t1" ∧
    (∀ c2 ∈ tenantCostCodes
        [⟨"100", "Plumbing", none, "t1"⟩, ⟨"200", "Electric", none, "t2"⟩] "t2",
      (⟨"100", "Plumbing", none, "t1"⟩ : CostCode).code ≠ c2.code) ∧
    (∀ v ∈ matchVendorCandidates (fun a b => if a = b then 100 else 10)
        [⟨"ABC Plumbing LLC", "t1"⟩, ⟨"Smith Electric Inc", "t2"⟩] "t1" "ABC Plumbing LLC",
      v.builder_id = "t1") :=
  tenant_isolation
    (fun _ c => if c.code = "100" then 9/10 else 1/10)
    (fun a b => if a = b then 100 else 10)
    [⟨"100", "Plumbing", none, "t1"⟩, ⟨"200", "Electric", none, "t2"⟩]
    [⟨"ABC Plumbing LLC", "t1"⟩, ⟨"Smith Electric Inc", "t2"⟩]
    "t1" "t2" "pipe rough-in" "ABC Plumbing LLC"
    ⟨"100", "Plumbing", none, "t1"⟩
    (by decide)
    (by decide)

end Receiptor
